import Mathlib

/-!
Shallow embedding of the MediumKM reading-list dashboard (src/webKM2.py) and
proofs of the specification's testable properties.

The Python source is a streamlit script; its data/state core is embedded here:
  * the read-status side store (`ensure_read_db`, `_dedup_by_itemkey`,
    `load_read_db`, `save_read_db`, `mark_read`, lines 9-44),
  * the main-data loader's merge with the read-status store (`load_data`,
    lines 52-75),
  * the filter/search/sort pipeline of the main script (lines 268-296),
  * the pagination logic of `display_paginated_articles` (lines 78-141) and
    the page-reset-on-filter-change logic (lines 255-266).

Pandas dataframes become Lean lists; the CSV side file becomes an explicit
`StoreContent` value threaded through the store operations; a missing cell
(NaN) becomes `Option`.
-/

namespace WebKM

/-- A row of the read-status side file `read_status.csv`: (ItemKey, Read).
Mirrors the two-column table written by `save_read_db`. -/
abbrev ReadRow := String × Bool

/-- The observable content of the read-status side file.  `ok rows` is a
parseable file holding `rows`; `corrupt` is an unreadable/malformed file
(the `except` branch of `load_read_db`). -/
inductive StoreContent where
  | ok (rows : List ReadRow)
  | corrupt
deriving DecidableEq

/-- `df["ItemKey"].values` membership test used by `mark_read` and (as the
duplicate test) by `drop_duplicates`: does some row of `l` carry key `a`? -/
def keyMem (a : String) (l : List ReadRow) : Bool :=
  l.any fun q => q.1 = a

/-- `_dedup_by_itemkey` (webKM2.py lines 14-18):
`df.drop_duplicates(subset=["ItemKey"], keep="last")` — a row survives
exactly when no later row carries the same ItemKey, so the last write for
each key is kept, in its original position. -/
def _dedup_by_itemkey : List ReadRow → List ReadRow
  | [] => []
  | r :: rest =>
    if keyMem r.1 rest then _dedup_by_itemkey rest
    else r :: _dedup_by_itemkey rest

/-- `load_read_db` (webKM2.py lines 20-32): returns the deduplicated rows
together with the file content after the call.  A parseable file is
returned deduplicated and left unchanged on disk; a corrupt file triggers
the `except` branch, which rewrites the file as an empty store and returns
the empty table. -/
def load_read_db : StoreContent → List ReadRow × StoreContent
  | .ok rows => (_dedup_by_itemkey rows, .ok rows)
  | .corrupt => ([], .ok [])

/-- `save_read_db` (webKM2.py lines 34-36): dedups then overwrites the file. -/
def save_read_db (db : List ReadRow) : StoreContent :=
  .ok (_dedup_by_itemkey db)

/-- The in-place update / append performed by `mark_read` (lines 40-43):
if the key is present, set `Read` on every row with that key
(`db.loc[db["ItemKey"] == item_key, "Read"] = read_state`);
otherwise append a fresh row (`pd.concat`). -/
def upsertRow (db : List ReadRow) (k : String) (v : Bool) : List ReadRow :=
  if keyMem k db then db.map fun p => if p.1 = k then (p.1, v) else p
  else db ++ [(k, v)]

/-- `mark_read` (webKM2.py lines 38-44): load, upsert, save. -/
def mark_read (s : StoreContent) (k : String) (v : Bool) : StoreContent :=
  save_read_db (upsertRow (load_read_db s).1 k v)

/-- The identifier→read mapping that a `load_read_db` call hands to its
caller: association-list lookup in the deduplicated table. -/
def loadMap (s : StoreContent) (k : String) : Option Bool :=
  List.lookup k (load_read_db s).1

/-- The raw rows held by a store content (corrupt holds none). -/
def rowsOf : StoreContent → List ReadRow
  | .ok rows => rows
  | .corrupt => []

/-! ### Association-list lemmas for the store  -/

lemma lookup_cons_self (k : String) (b : Bool) (l : List ReadRow) :
    List.lookup k ((k, b) :: l) = some b := by
  simp [List.lookup]

lemma lookup_cons_ne {k a : String} (b : Bool) (l : List ReadRow) (h : k ≠ a) :
    List.lookup k ((a, b) :: l) = List.lookup k l := by
  have hb : (k == a) = false := beq_eq_false_iff_ne.mpr h
  simp [List.lookup, hb]

lemma lookup_append (k : String) (xs ys : List ReadRow) :
    List.lookup k (xs ++ ys) = (List.lookup k xs).or (List.lookup k ys) := by
  induction xs with
  | nil => rfl
  | cons p xs ih =>
    obtain ⟨a, b⟩ := p
    by_cases h : k = a
    · subst h
      rw [List.cons_append, lookup_cons_self, lookup_cons_self]
      rfl
    · rw [List.cons_append, lookup_cons_ne b _ h, lookup_cons_ne b _ h, ih]

lemma lookup_eq_none_iff (k : String) (l : List ReadRow) :
    List.lookup k l = none ↔ k ∉ l.map Prod.fst := by
  induction l with
  | nil => simp [List.lookup]
  | cons p l ih =>
    obtain ⟨a, b⟩ := p
    by_cases h : k = a
    · subst h
      rw [lookup_cons_self]
      simp
    · rw [lookup_cons_ne b l h]
      simp [h, ih]

lemma keys_reverse (l : List ReadRow) :
    l.reverse.map Prod.fst = (l.map Prod.fst).reverse :=
  List.map_reverse _ _

lemma lookup_reverse_eq_none_iff (k : String) (l : List ReadRow) :
    List.lookup k l.reverse = none ↔ k ∉ l.map Prod.fst := by
  rw [lookup_eq_none_iff, keys_reverse, List.mem_reverse]

lemma keyMem_iff (a : String) (l : List ReadRow) :
    keyMem a l = true ↔ a ∈ l.map Prod.fst := by
  simp [keyMem, List.any_eq_true, List.mem_map]

/-- Lookup in the deduplicated table is lookup-from-the-end of the raw
table: deduplication keeps, for each key, exactly the last-written value. -/
lemma lookup_dedup (k : String) (l : List ReadRow) :
    List.lookup k (_dedup_by_itemkey l) = List.lookup k l.reverse := by
  induction l with
  | nil => rfl
  | cons r l ih =>
    obtain ⟨a, b⟩ := r
    rw [List.reverse_cons, lookup_append]
    by_cases hany : keyMem a l = true
    · rw [show _dedup_by_itemkey ((a, b) :: l) = _dedup_by_itemkey l by
        simp [_dedup_by_itemkey, hany]]
      rw [ih]
      cases hx : List.lookup k l.reverse with
      | some v => rfl
      | none =>
        have hk : k ∉ l.map Prod.fst := (lookup_reverse_eq_none_iff k l).mp hx
        have hka : k ≠ a := by
          rintro rfl
          exact hk ((keyMem_iff k l).mp hany)
        rw [lookup_cons_ne b _ hka]
        rfl
    · rw [show _dedup_by_itemkey ((a, b) :: l) = (a, b) :: _dedup_by_itemkey l by
        simp [_dedup_by_itemkey, hany]]
      have ha : a ∉ l.map Prod.fst := fun hm => hany ((keyMem_iff a l).mpr hm)
      by_cases hk : k = a
      · subst hk
        rw [lookup_cons_self, (lookup_reverse_eq_none_iff k l).mpr ha,
          lookup_cons_self]
        rfl
      · rw [lookup_cons_ne b _ hk, ih, lookup_cons_ne b _ hk]
        show List.lookup k l.reverse =
          (List.lookup k l.reverse).or (List.lookup k ([] : List ReadRow))
        cases List.lookup k l.reverse <;> rfl

lemma mem_keys_dedup_iff (k : String) (l : List ReadRow) :
    k ∈ (_dedup_by_itemkey l).map Prod.fst ↔ k ∈ l.map Prod.fst := by
  rw [← not_iff_not, ← lookup_eq_none_iff, lookup_dedup,
    lookup_reverse_eq_none_iff]

lemma keys_dedup_nodup (l : List ReadRow) :
    ((_dedup_by_itemkey l).map Prod.fst).Nodup := by
  induction l with
  | nil => simp [_dedup_by_itemkey]
  | cons r l ih =>
    obtain ⟨a, b⟩ := r
    by_cases hany : keyMem a l = true
    · rw [show _dedup_by_itemkey ((a, b) :: l) = _dedup_by_itemkey l by
        simp [_dedup_by_itemkey, hany]]
      exact ih
    · rw [show _dedup_by_itemkey ((a, b) :: l) = (a, b) :: _dedup_by_itemkey l by
        simp [_dedup_by_itemkey, hany]]
      have ha : a ∉ l.map Prod.fst := fun hm => hany ((keyMem_iff a l).mpr hm)
      refine List.nodup_cons.mpr ⟨fun hm => ha ?_, ih⟩
      exact (mem_keys_dedup_iff a l).mp hm

lemma dedup_eq_self_of_nodup {l : List ReadRow}
    (h : (l.map Prod.fst).Nodup) : _dedup_by_itemkey l = l := by
  induction l with
  | nil => rfl
  | cons r l ih =>
    obtain ⟨a, b⟩ := r
    rw [List.map_cons, List.nodup_cons] at h
    have hany : ¬ keyMem a l = true := fun hm => h.1 ((keyMem_iff a l).mp hm)
    rw [show _dedup_by_itemkey ((a, b) :: l) = (a, b) :: _dedup_by_itemkey l by
      simp [_dedup_by_itemkey, hany]]
    rw [ih h.2]

lemma dedup_idem (l : List ReadRow) :
    _dedup_by_itemkey (_dedup_by_itemkey l) = _dedup_by_itemkey l :=
  dedup_eq_self_of_nodup (keys_dedup_nodup l)

lemma lookup_reverse_of_nodup {l : List ReadRow}
    (h : (l.map Prod.fst).Nodup) (k : String) :
    List.lookup k l.reverse = List.lookup k l := by
  rw [← lookup_dedup, dedup_eq_self_of_nodup h]

lemma load_read_db_fst (s : StoreContent) :
    (load_read_db s).1 = _dedup_by_itemkey (rowsOf s) := by
  cases s <;> rfl

lemma keys_load_nodup (s : StoreContent) :
    (((load_read_db s).1).map Prod.fst).Nodup := by
  rw [load_read_db_fst]
  exact keys_dedup_nodup _

lemma lookup_map_set_self (k : String) (v : Bool) :
    ∀ l : List ReadRow, k ∈ l.map Prod.fst →
      List.lookup k (l.map fun p => if p.1 = k then (p.1, v) else p)
        = some v := by
  intro l
  induction l with
  | nil => intro hmem; simp at hmem
  | cons p l ih =>
    obtain ⟨a, b⟩ := p
    intro hmem
    by_cases h : a = k
    · rw [show ((a, b) :: l).map (fun p => if p.1 = k then (p.1, v) else p)
          = (a, v) :: l.map fun p => if p.1 = k then (p.1, v) else p by
        simp [h]]
      rw [h]
      exact lookup_cons_self k v _
    · rw [show ((a, b) :: l).map (fun p => if p.1 = k then (p.1, v) else p)
          = (a, b) :: l.map fun p => if p.1 = k then (p.1, v) else p by
        simp [h]]
      rw [lookup_cons_ne b _ fun hk => h hk.symm]
      rw [List.map_cons] at hmem
      rcases List.mem_cons.mp hmem with h1 | h1
      · exact absurd h1.symm h
      · exact ih h1

lemma lookup_map_set_other {j k : String} (v : Bool) (h : j ≠ k) :
    ∀ l : List ReadRow,
      List.lookup j (l.map fun p => if p.1 = k then (p.1, v) else p)
        = List.lookup j l := by
  intro l
  induction l with
  | nil => rfl
  | cons p l ih =>
    obtain ⟨a, b⟩ := p
    by_cases ha : a = k
    · rw [show ((a, b) :: l).map (fun p => if p.1 = k then (p.1, v) else p)
          = (a, v) :: l.map fun p => if p.1 = k then (p.1, v) else p by
        simp [ha]]
      rw [ha] at *
      rw [lookup_cons_ne v _ h, lookup_cons_ne b _ h, ih]
    · rw [show ((a, b) :: l).map (fun p => if p.1 = k then (p.1, v) else p)
          = (a, b) :: l.map fun p => if p.1 = k then (p.1, v) else p by
        simp [ha]]
      by_cases hj : j = a
      · rw [hj, lookup_cons_self, lookup_cons_self]
      · rw [lookup_cons_ne b _ hj, lookup_cons_ne b _ hj, ih]

lemma lookup_upsert_self (db : List ReadRow) (k : String) (v : Bool) :
    List.lookup k (upsertRow db k v).reverse = some v := by
  unfold upsertRow
  by_cases hm : keyMem k db = true
  · rw [if_pos hm]
    rw [show (db.map fun p => if p.1 = k then (p.1, v) else p).reverse
        = db.reverse.map fun p => if p.1 = k then (p.1, v) else p from
      (List.map_reverse _ _).symm]
    refine lookup_map_set_self k v db.reverse ?_
    rw [keys_reverse, List.mem_reverse]
    exact (keyMem_iff k db).mp hm
  · rw [if_neg hm, List.reverse_append]
    exact lookup_cons_self k v _

lemma lookup_upsert_other (db : List ReadRow) {j k : String} (v : Bool)
    (h : j ≠ k) :
    List.lookup j (upsertRow db k v).reverse = List.lookup j db.reverse := by
  unfold upsertRow
  by_cases hm : keyMem k db = true
  · rw [if_pos hm]
    rw [show (db.map fun p => if p.1 = k then (p.1, v) else p).reverse
        = db.reverse.map fun p => if p.1 = k then (p.1, v) else p from
      (List.map_reverse _ _).symm]
    exact lookup_map_set_other v h db.reverse
  · rw [if_neg hm, List.reverse_append]
    exact lookup_cons_ne v _ h

/-! ### Item model and `load_data` (webKM2.py lines 52-75)

A spreadsheet row after `pd.read_excel` and the date coercion
`pd.to_datetime(df["Date"], errors="coerce")`: a malformed or missing date
has already become `none` (NaT), and a missing subtitle cell is `none`
(NaN).  Dates are modelled as integer timestamps, which is all the
ordering needs. -/

structure SourceRow where
  date : Option Int
  author : String
  title : String
  subtitle : Option String
  url : String
  category : String
deriving DecidableEq

/-- An in-memory item after `load_data`: the source row plus the derived
`ItemKey` (the URL, line 63) and the merged `Read` flag (lines 68-71). -/
structure Item where
  itemKey : String
  date : Option Int
  author : String
  title : String
  subtitle : Option String
  url : String
  category : String
  read : Bool
deriving DecidableEq

/-- `load_data` (webKM2.py lines 52-75), after the schema check and date
coercion: derive `ItemKey` from the URL, left-join the read-status store's
mapping on `ItemKey` (the store table is key-deduplicated, so the join
attaches at most one `Read` value per row), and
`df["Read"].fillna(False)`: an unmatched row gets `read := false`. -/
def load_data (rows : List SourceRow) (store : StoreContent) : List Item :=
  rows.map fun r =>
    { itemKey := r.url
      date := r.date
      author := r.author
      title := r.title
      subtitle := r.subtitle
      url := r.url
      category := r.category
      read := (loadMap store r.url).getD false }

/-! ### Filter/search engine (webKM2.py lines 268-296) -/

/-- ASCII lowercasing of one character, as done by `case=False` matching. -/
def lowerChar (c : Char) : Char :=
  if 65 ≤ c.toNat ∧ c.toNat ≤ 90 then Char.ofNat (c.toNat + 32) else c

/-- Lowercased character list of a string. -/
def lowerChars (s : String) : List Char := s.toList.map lowerChar

/-- Does `needle` occur at the start of `hay`? -/
def startsWithChars : List Char → List Char → Bool
  | [], _ => true
  | _ :: _, [] => false
  | a :: as, b :: bs => a = b && startsWithChars as bs

/-- Does `needle` occur as a contiguous run somewhere in `hay`? -/
def occursIn : List Char → List Char → Bool
  | needle, [] => needle.isEmpty
  | needle, c :: t => startsWithChars needle (c :: t) || occursIn needle t

/-- `Series.str.contains(term, case=False)` on one cell, for a plain
(regex-metacharacter-free) search term: case-insensitive substring test. -/
def str_contains (hay term : String) : Bool :=
  occursIn (lowerChars term) (lowerChars hay)

/-- `astype(str)` on an optional cell: pandas renders a missing value (NaN)
as the literal string "nan" before any string matching happens
(webKM2.py lines 286-287). -/
def astype_str : Option String → String
  | some s => s
  | none => "nan"

/-- The boolean search mask of webKM2.py lines 285-288: term occurs
case-insensitively in the (stringified) Title or the (stringified)
Subtitle.  Titles are required non-null by the schema; subtitles may be
missing and go through `astype_str`. -/
def searchMask (term : String) (i : Item) : Bool :=
  str_contains i.title term || str_contains (astype_str i.subtitle) term

/-- The search narrowing of webKM2.py lines 284-296: an empty search box is
falsy, so no narrowing; otherwise keep the mask's rows. -/
def searchStep (term : String) (l : List Item) : List Item :=
  if term = "" then l else l.filter (searchMask term)

/-- The three-way status radio (lines 183-193): 全部 / 僅未報告 / 僅已報告. -/
inductive Status where
  | all
  | unreadOnly
  | readOnly
deriving DecidableEq

/-- The status narrowing of webKM2.py lines 275-278. -/
def statusStep (st : Status) (l : List Item) : List Item :=
  match st with
  | .all => l
  | .unreadOnly => l.filter fun i => !i.read
  | .readOnly => l.filter fun i => i.read

/-- The category narrowing of webKM2.py lines 269-272: an empty selection
list is falsy, so no narrowing; otherwise `isin(selected_labels)`. -/
def categoryStep (sel : List String) (l : List Item) : List Item :=
  if sel = [] then l else l.filter fun i => sel.contains i.category

/-- Sort key for `sort_values("Date", ascending=False)`: a date as a value
in `WithBot ℤ`, with a null date (NaT) at the bottom so that it sorts
after every real date (pandas puts NaN last). -/
def dateVal (i : Item) : WithBot Int :=
  i.date.elim ⊥ fun d => (d : WithBot Int)

/-- The "a comes no later than b" relation realised by
`sort_values("Date", ascending=False)`: descending by date, null dates
last. -/
def dateDescR (a b : Item) : Prop :=
  dateVal b ≤ dateVal a

instance : DecidableRel dateDescR := fun a b =>
  inferInstanceAs (Decidable (dateVal b ≤ dateVal a))

instance : IsTotal Item dateDescR :=
  ⟨fun a b => (le_total (dateVal b) (dateVal a)).imp id id⟩

instance : IsTrans Item dateDescR :=
  ⟨fun _ _ _ h1 h2 => le_trans h2 h1⟩

/-- The sort of webKM2.py line 281, `sort_values("Date", ascending=False)`,
realised by a sort that is correct for `dateDescR`. -/
def sortStep (l : List Item) : List Item :=
  List.insertionSort dateDescR l

/-- The filter state an interaction pass works with: the (deduplicated,
sorted) selected category labels, the status radio, and the search box. -/
structure FilterState where
  selectedCategories : List String
  status : Status
  searchTerm : String
deriving DecidableEq

/-- The whole narrowing pipeline of the main script (webKM2.py lines
268-296), in source order: category filter, status filter, date sort,
search filter.  Its value is what `display_paginated_articles` receives. -/
def filtered_df (fs : FilterState) (df : List Item) : List Item :=
  searchStep fs.searchTerm
    (sortStep (statusStep fs.status (categoryStep fs.selectedCategories df)))

/-! ### Pagination (webKM2.py lines 78-141) and the session page state
(lines 251-266) -/

/-- `items_per_page = 8` (line 86). -/
def items_per_page : Int := 8

/-- `total_pages = (len(df) + items_per_page - 1) // items_per_page`
(line 87): ceiling division on Python ints. -/
def total_pages (n : Nat) : Int :=
  ((n : Int) + items_per_page - 1) / items_per_page

/-- The next-page button handler (webKM2.py lines 137-140): increment only
while strictly before the last page, else leave the page unchanged. -/
def nextPage (n : Nat) (p : Int) : Int :=
  if p < total_pages n - 1 then p + 1 else p

/-- The previous-page button handler (webKM2.py lines 133-136). -/
def prevPage (p : Int) : Int :=
  if 0 < p then p - 1 else p

/-- The clamp of webKM2.py line 89: after a filter change shrinks the
result set, pull the stored page back into range. -/
def clampPage (n : Nat) (p : Int) : Int :=
  min p (max (total_pages n - 1) 0)

/-- What one call of `display_paginated_articles` renders: the empty-set
message (lines 79-81), or a page slice together with the clamped page
index it settled on. -/
inductive DisplayResult where
  | emptyMessage
  | page (shown : List Item) (pageIdx : Int)
deriving DecidableEq

/-- `display_paginated_articles` (webKM2.py lines 78-93): an empty frame
short-circuits to the info message before any page arithmetic or buttons;
otherwise the stored page is clamped and the slice
`df.iloc[page*8 : page*8+8]` is rendered. -/
def display_paginated_articles (df : List Item) (p : Int) : DisplayResult :=
  if df.isEmpty then .emptyMessage
  else
    let idx := clampPage df.length p
    .page ((df.drop (idx * items_per_page).toNat).take items_per_page.toNat) idx

/-- The per-session page/filter memory (webKM2.py lines 251-266):
`st.session_state.page`, `last_search`, `last_selected`, `last_status`.
The `last_*` slots start out absent (`session_state.get` yields `None`),
hence the `Option`s. -/
structure SessionSt where
  page : Int
  last_search : Option String
  last_selected : Option (List String)
  last_status : Option Status
deriving DecidableEq

/-- The filter-change reset of webKM2.py lines 255-266: each of the three
`last_*` comparisons in source order; a mismatch zeroes the page and
refreshes the remembered value. -/
def resetOnFilterChange (s : SessionSt) (search : String)
    (sel : List String) (status : Status) : SessionSt :=
  let s1 := if s.last_search ≠ some search then
    { s with page := 0, last_search := some search } else s
  let s2 := if s1.last_selected ≠ some sel then
    { s1 with page := 0, last_selected := some sel } else s1
  if s2.last_status ≠ some status then
    { s2 with page := 0, last_status := some status } else s2

/-! ### Claim theorems: the read-status store -/

/-- C3: on any persisted row list, `load()` deduplicates by identifier
keeping the last-occurring record: the returned table has no repeated
identifier, it covers exactly the identifiers of the raw rows, and each
identifier looks up to the value written last (lookup in the reversed raw
list); in particular two conflicting writes for one identifier collapse
to the later one. -/
theorem load_dedups_keeping_last_write (rows : List ReadRow) :
    (((load_read_db (.ok rows)).1).map Prod.fst).Nodup
    ∧ (∀ k, List.lookup k (load_read_db (.ok rows)).1
        = List.lookup k rows.reverse)
    ∧ (∀ k, k ∈ ((load_read_db (.ok rows)).1).map Prod.fst
        ↔ k ∈ rows.map Prod.fst)
    ∧ (load_read_db (.ok [("u", false), ("u", true)])).1 = [("u", true)] := by
  refine ⟨keys_load_nodup _, fun k => ?_, fun k => ?_, by decide⟩
  · exact lookup_dedup k rows
  · exact mem_keys_dedup_iff k rows

/-- C4: a corrupt side file never propagates an error to the caller:
`load()` returns the empty mapping and rewrites the file as an empty
store, and the dashboard load still goes through — every source row
yields an item, with `read` defaulted to false. -/
theorem load_recovers_from_corrupt_store :
    (∀ k, loadMap .corrupt k = none)
    ∧ (load_read_db .corrupt).2 = .ok []
    ∧ (∀ rows : List SourceRow,
        (load_data rows .corrupt).length = rows.length)
    ∧ (∀ rows : List SourceRow,
        ((load_data rows .corrupt).all fun i => !i.read) = true) := by
  refine ⟨fun k => rfl, rfl, fun rows => by simp [load_data], fun rows => ?_⟩
  rw [List.all_eq_true]
  intro i hi
  obtain ⟨r, _, rfl⟩ := List.mem_map.mp hi
  rfl

/-- C5: `markRead(id, true)` followed immediately by `load()` yields a
mapping holding `true` at `id`, whatever the prior store state — any
number of earlier `markRead` calls for other identifiers, or even a
corrupt file. -/
theorem markRead_then_load_reads_true (s : StoreContent) (k : String) :
    loadMap (mark_read s k true) k = some true := by
  unfold loadMap mark_read save_read_db
  simp only [load_read_db]
  rw [dedup_idem, lookup_dedup]
  exact lookup_upsert_self _ k true

/-- C10: `markRead(id, readState)` does not disturb any other identifier:
the mapping loaded after the call agrees with the mapping loaded before
it on every identifier other than `id`. -/
theorem markRead_frame (s : StoreContent) (k j : String) (v : Bool)
    (h : j ≠ k) :
    loadMap (mark_read s k v) j = loadMap s j := by
  unfold loadMap mark_read save_read_db
  simp only [load_read_db]
  rw [dedup_idem, lookup_dedup, lookup_upsert_other _ v h]
  exact lookup_reverse_of_nodup (keys_load_nodup s) j

/-- Witness for C10 at a concrete store and distinct identifiers. -/
theorem markRead_frame_witness :
    ("b" : String) ≠ "a"
    ∧ loadMap (mark_read (.ok [("b", true)]) "a" false) "b"
      = loadMap (.ok [("b", true)]) "b" :=
  ⟨by decide, markRead_frame (.ok [("b", true)]) "a" "b" false (by decide)⟩

/-- C2: after a load-merge cycle, an item's `read` flag is `false` exactly
when the read-status store holds no record for its identifier or holds a
record whose value is `false`; unmatched items default to `read = false`. -/
theorem load_merge_read_iff (rows : List SourceRow) (store : StoreContent)
    (it : Item) (hmem : it ∈ load_data rows store) :
    it.read = false
      ↔ (loadMap store it.itemKey = none
          ∨ loadMap store it.itemKey = some false) := by
  obtain ⟨r, _, rfl⟩ := List.mem_map.mp hmem
  dsimp only [load_data]
  cases hx : loadMap store r.url with
  | none => simp [hx]
  | some b => cases b <;> simp [hx]

/-- A concrete source row used in witnesses. -/
def rowW : SourceRow :=
  { date := none, author := "a", title := "T", subtitle := none,
    url := "u", category := "c" }

/-- The item that `load_data [rowW] (.ok [])` produces. -/
def itemW : Item :=
  { itemKey := "u", date := none, author := "a", title := "T",
    subtitle := none, url := "u", category := "c", read := false }

/-- Witness for C2: one source row against an empty store; the merged item
has `read = false` and the store indeed has no record for its key. -/
theorem load_merge_read_iff_witness :
    itemW.read = false
      ↔ (loadMap (.ok []) itemW.itemKey = none
          ∨ loadMap (.ok []) itemW.itemKey = some false) :=
  load_merge_read_iff [rowW] (.ok []) itemW (by decide)

/-! ### Claim theorems: filter/search engine -/

/-- An item titled "Agentic Workflows" with a missing subtitle. -/
def agenticItem : Item :=
  { itemKey := "u1", date := none, author := "a1",
    title := "Agentic Workflows", subtitle := none, url := "u1",
    category := "c", read := false }

/-- An item titled "Understanding LLM Internals". -/
def llmItem : Item :=
  { itemKey := "u2", date := none, author := "a2",
    title := "Understanding LLM Internals", subtitle := some "s",
    url := "u2", category := "c", read := false }

/-- C1 (code evaluated at the failing input): because the subtitle column
goes through `astype(str)` before `str.contains`, a missing subtitle is
matched as the literal string "nan".  The search step keeps an item whose
title does not contain the non-empty term "nan" and whose subtitle is
missing — the claim says such an item is never kept.  The claim's own
mixed-case scenario does hold: "llm" matches the LLM title and does not
match the Agentic item. -/
theorem search_keeps_missing_subtitle_for_term_nan :
    searchStep "nan" [agenticItem] = [agenticItem]
    ∧ str_contains agenticItem.title "nan" = false
    ∧ agenticItem.subtitle = none
    ∧ searchMask "llm" llmItem = true
    ∧ searchMask "llm" agenticItem = false := by
  decide

lemma mem_of_mem_searchStep {t : String} {l : List Item} {x : Item}
    (h : x ∈ searchStep t l) : x ∈ l := by
  unfold searchStep at h
  split at h
  · exact h
  · exact (List.mem_filter.mp h).1

lemma mem_of_mem_statusStep {st : Status} {l : List Item} {x : Item}
    (h : x ∈ statusStep st l) : x ∈ l := by
  cases st with
  | all => exact h
  | unreadOnly => exact (List.mem_filter.mp h).1
  | readOnly => exact (List.mem_filter.mp h).1

lemma mem_of_mem_categoryStep {sel : List String} {l : List Item} {x : Item}
    (h : x ∈ categoryStep sel l) : x ∈ l := by
  unfold categoryStep at h
  split at h
  · exact h
  · exact (List.mem_filter.mp h).1

lemma mem_of_mem_sortStep {l : List Item} {x : Item}
    (h : x ∈ sortStep l) : x ∈ l :=
  (List.perm_insertionSort dateDescR l).mem_iff.mp h

/-- C6: the filter pipeline only narrows — every item of the filtered
result comes from the unfiltered set — and it is a pure function of the
filter state and the item set: the same inputs give the same output. -/
theorem filtered_subset_and_pure (df : List Item) (fs : FilterState)
    (x : Item) (hmem : x ∈ filtered_df fs df) :
    x ∈ df ∧ filtered_df fs df = filtered_df fs df := by
  refine ⟨?_, rfl⟩
  exact mem_of_mem_categoryStep
    (mem_of_mem_statusStep (mem_of_mem_sortStep (mem_of_mem_searchStep hmem)))

/-- Witness for C6 at a one-item set and the identity filter state. -/
theorem filtered_subset_and_pure_witness :
    itemW ∈ [itemW]
    ∧ filtered_df ⟨[], .all, ""⟩ [itemW] = filtered_df ⟨[], .all, ""⟩ [itemW] :=
  filtered_subset_and_pure [itemW] ⟨[], .all, ""⟩ itemW (by decide)

/-- C9: whatever the category/status/search filters, the pipeline's result
is sorted by date descending (null dates at the bottom of the order), and
in particular a null-dated item is never followed by a dated one. -/
theorem result_sorted_date_desc_nulls_last (df : List Item)
    (fs : FilterState) :
    List.Sorted dateDescR (filtered_df fs df)
    ∧ List.Pairwise (fun a b => a.date = none → b.date = none)
        (filtered_df fs df) := by
  have hs : List.Sorted dateDescR
      (sortStep (statusStep fs.status (categoryStep fs.selectedCategories df))) :=
    List.sorted_insertionSort dateDescR _
  have h1 : List.Sorted dateDescR (filtered_df fs df) := by
    unfold filtered_df searchStep
    split
    · exact hs
    · exact hs.sublist (List.filter_sublist _)
  refine ⟨h1, List.Pairwise.imp ?_ h1⟩
  intro a b hab ha
  have hba : dateVal b ≤ dateVal a := hab
  have hbot : dateVal a = ⊥ := by
    simp [dateVal, ha]
  rw [hbot] at hba
  have hb : dateVal b = ⊥ := le_bot_iff.mp hba
  cases hbd : b.date with
  | none => rfl
  | some d =>
    exfalso
    rw [dateVal, hbd] at hb
    exact WithBot.coe_ne_bot hb

/-! ### Claim theorems: pagination state -/

/-- C7: with page size 8, `next()` increments exactly when the current
index is strictly before the last page and is a no-op otherwise; 13
results make 2 pages and `next()` at index 1 is a no-op; an empty result
set renders the empty message (so no navigation exists at all). -/
theorem pagination_next_and_empty :
    (∀ (n : Nat) (p : Int), nextPage n p = p + 1 ↔ p < total_pages n - 1)
    ∧ (∀ (n : Nat) (p : Int), nextPage n p = p ↔ total_pages n - 1 ≤ p)
    ∧ total_pages 13 = 2
    ∧ nextPage 13 1 = 1
    ∧ (∀ p : Int, display_paginated_articles [] p = .emptyMessage) := by
  refine ⟨fun n p => ?_, fun n p => ?_, by decide, by decide, fun p => rfl⟩
  · unfold nextPage
    split <;> rename_i h <;> constructor <;> intro h2 <;> omega
  · unfold nextPage
    split <;> rename_i h <;> constructor <;> intro h2 <;> omega

/-- C8: any value change in the remembered search term, selected-category
list, or status choice zeroes the session page (and no change leaves it
alone); the clamp pulls the page index to `min p (max (totalPages-1) 0)`,
characterised here as the greatest value that is at most both bounds. -/
theorem filter_change_resets_page_and_clamp (s : SessionSt)
    (search : String) (sel : List String) (status : Status)
    (n : Nat) (p : Int) :
    ((resetOnFilterChange s search sel status).page =
      if s.last_search ≠ some search ∨ s.last_selected ≠ some sel
          ∨ s.last_status ≠ some status then 0 else s.page)
    ∧ clampPage n p ≤ p
    ∧ clampPage n p ≤ max (total_pages n - 1) 0
    ∧ (clampPage n p = p ∨ clampPage n p = max (total_pages n - 1) 0) := by
  refine ⟨?_, min_le_left _ _, min_le_right _ _, min_choice _ _⟩
  unfold resetOnFilterChange
  by_cases h1 : s.last_search ≠ some search <;>
    by_cases h2 : s.last_selected ≠ some sel <;>
      by_cases h3 : s.last_status ≠ some status <;>
        simp [h1, h2, h3]
